import Mathlib

/-!
# Verification of the vehicle-tracking-simulation route-generator core

This file gives a shallow embedding, in Lean 4, of the route-generator core of
the `vehicle-tracking-simulation` repository, and proves (or refutes) the
specification claims about it.

The embedded components and their Go sources:

* the data model (`Coordinate`, `RouteRequest`, `RouteResult`, `Route`) from
  `internal/route-service/models` and the generator package;
* the request generator (`NewGenerator`, `GenerateRouteRequests`,
  `generateRandomRequests`, `generatePermutationRequests`) from
  `internal/route-service/models/coordinate.go` (package `generator`);
* the dispatcher (`ProcessRequests`) from the same package, modelled as a
  small-step relation over channel states;
* the retry processor (`ProcessRoute`) from
  `internal/route-generator/processor/processor.go`;
* the result store (`SaveRoute`, `saveIndividualRoute` outcome, `SaveMetadata`,
  `SaveSummary`) from `internal/route-generator/config/config.go`
  (package `storage`), and the result-recording loop of
  `cmd/route-generator/main.go` (`saveResults`).

Modelling conventions:

* Go `float64` values are modelled as exact rationals `ℚ`; where the special
  IEEE values matter (the success-rate division) a dedicated `GoFloat` type
  with `nan` and signed infinity is used, with division and multiplication
  defined on the cases the embedded code can reach.
* Go `int`/`int64` are modelled as `ℤ` (or `ℕ` for loop counters that are
  only ever non-negative).
* File-system writes are I/O; a write's outcome (`nil` error or not) is an
  explicit parameter of the embedded function, and the "written content" is
  the value the Go code passes to the JSON encoder.
* `math/rand` is modelled by an explicit deterministic generator interface
  `RngModel`: a state type with pure transition functions for `Float64` and
  `Intn`, and a pure seeding function for `rand.New (rand.NewSource seed)`.
  This is faithful to Go's seeded `rand.Rand`, which is a deterministic
  function of its seed.
* Concurrency (the worker pool of `ProcessRequests`, and the unsynchronized
  counter increments of `saveResults`) is modelled by explicit small-step
  transition relations over program states, quantifying over all
  interleavings.
-/

namespace VehicleTracking

/-! ## Data model (`internal/route-service/models`, generator package) -/

/-- `models.Coordinate`: a geographic point.  Go `float64` fields are
modelled as exact rationals. -/
structure Coordinate where
  Latitude : ℚ
  Longitude : ℚ
deriving DecidableEq

/-- `models.Route` (OSRM-compatible): only the fields the route-generator
core reads (`Distance`, `Duration`, `Geometry`) are embedded; `Legs`,
`Weight`, `WeightName` and `Summary` are carried opaquely by no claim and
are omitted. -/
structure Route where
  Geometry : String
  Distance : ℚ
  Duration : ℚ
deriving DecidableEq

/-- `generator.RouteRequest`: a route request with ID, start/end coordinates
and a profile string. -/
structure RouteRequest where
  ID : ℤ
  Start : Coordinate
  End : Coordinate
  Profile : String
deriving DecidableEq

/-- `generator.RouteResult`: the result for one request.  `Route` is Go's
`*models.Route` (`none` = nil); `Error` is the Go `error` (`none` = nil),
carried as its message string. -/
structure RouteResult where
  ID : ℤ
  Route : Option Route
  Error : Option String
deriving DecidableEq

/-! ## Go float64 with IEEE special values (for the summary division)

`storage.SaveSummary` divides two integer-valued `float64`s without a zero
guard, so the embedded arithmetic must represent the IEEE outcomes of
dividing by zero.  `GoFloat` is an exact model of the `float64` values the
embedded code can produce: finite values are exact rationals (the inputs are
integers, so the only rounding in the real code is in the division itself,
which does not affect zero/NaN/infinity classification). -/

/-- A Go `float64` value: NaN, a signed infinity, or a finite value. -/
inductive GoFloat where
  | nan
  | inf (positive : Bool)
  | fin (q : ℚ)
deriving DecidableEq

/-- IEEE-754 division on `GoFloat` (the cases reachable from the embedded
code: finite / finite).  `0/0 = NaN`, `x/0 = ±∞` for `x ≠ 0`. -/
def GoFloat.div : GoFloat → GoFloat → GoFloat
  | .fin a, .fin b =>
    if b = 0 then
      if a = 0 then .nan else .inf (decide (0 < a))
    else .fin (a / b)
  | .nan, _ => .nan
  | _, .nan => .nan
  | x, _ => x

/-- IEEE-754 multiplication on `GoFloat` (the cases reachable from the
embedded code: the left factor may be NaN or infinite, the right factor is
the finite literal `100`). -/
def GoFloat.mul : GoFloat → GoFloat → GoFloat
  | .nan, _ => .nan
  | _, .nan => .nan
  | .fin a, .fin b => .fin (a * b)
  | .inf p, .fin b => if b = 0 then .nan else .inf (p = decide (0 < b))
  | .fin a, .inf p => if a = 0 then .nan else .inf (p = decide (0 < a))
  | .inf p, .inf q => .inf (p = q)

/-! ## Configuration (`internal/route-generator/config/config.go`) -/

/-- `config.Location`: a named geographic coordinate. -/
structure Location where
  Name : String
  Lat : ℚ
  Lng : ℚ
deriving DecidableEq

/-- `config.CountryBounds`: geographic boundaries. -/
structure CountryBounds where
  MinLat : ℚ
  MaxLat : ℚ
  MinLng : ℚ
  MaxLng : ℚ
deriving DecidableEq

/-- The `RouteGenerator` section of `config.Config` — the fields the
embedded core reads.  The Go `map[string]CountryBounds` is embedded as an
association list with `List.lookup` as map access. -/
structure GenConfig where
  RouteCount : ℕ
  Method : String
  Country : String
  CountryBoundsMap : List (String × CountryBounds)
  LocationSet : List Location
  RandomSeed : ℤ
deriving DecidableEq

/-! ## The seeded random generator (`math/rand`)

`NewGenerator` constructs `rand.New(rand.NewSource(seed))`: a deterministic
pseudo-random stream fully determined by the seed.  The embedding abstracts
over the concrete stream: an `RngModel` provides the state type and the pure
transition functions used by the generator (`Float64`, `Intn`, seeding).
Every theorem below holds for every `RngModel`; where a theorem needs the
documented range contract of `rand.Float64` (values in `[0,1)`) it takes
that contract as an explicit hypothesis. -/

/-- A deterministic model of Go's seeded `*rand.Rand`. -/
structure RngModel (σ : Type) where
  float64 : σ → ℚ × σ
  intn : ℕ → σ → ℕ × σ
  ofSeed : ℤ → σ

/-- A concrete executable `RngModel` (a linear congruential generator),
used to run the embedded generator on concrete inputs. -/
def lcgNext (s : ℕ) : ℕ := (s * 1103515245 + 12345) % 2147483648

/-- The concrete LCG instance of `RngModel`, with `float64` values of the
form `k/1024 ∈ [0,1)`. -/
def lcgRng : RngModel ℕ :=
  ⟨fun s => (((lcgNext s % 1024 : ℕ) : ℚ) / 1024, lcgNext s),
   fun n s => (lcgNext s % n, lcgNext s),
   fun z => z.toNat % 2147483648⟩

/-! ## The request generator (`generator` package, coordinate.go) -/

/-- `generator.Generator`: configuration plus the current `rand` state. -/
structure Generator (σ : Type) where
  config : GenConfig
  rand : σ

/-- `generator.NewGenerator`: seeds the random source from
`cfg.RouteGenerator.RandomSeed`. -/
def NewGenerator (M : RngModel σ) (cfg : GenConfig) : Generator σ :=
  ⟨cfg, M.ofSeed cfg.RandomSeed⟩

/-- The loop body of `generateRandomRequests`: produces the requests with
IDs `i+1, i+2, ...`, drawing four `Float64` samples per request (start
latitude, start longitude, end latitude, end longitude), threading the
rand state. -/
def generateRandomRequestsAux (M : RngModel σ) (bounds : CountryBounds) :
    ℕ → ℕ → σ → List RouteRequest
  | 0, _, _ => []
  | n + 1, i, s =>
    let p1 := M.float64 s
    let p2 := M.float64 p1.2
    let start : Coordinate :=
      ⟨bounds.MinLat + p1.1 * (bounds.MaxLat - bounds.MinLat),
       bounds.MinLng + p2.1 * (bounds.MaxLng - bounds.MinLng)⟩
    let p3 := M.float64 p2.2
    let p4 := M.float64 p3.2
    let stop : Coordinate :=
      ⟨bounds.MinLat + p3.1 * (bounds.MaxLat - bounds.MinLat),
       bounds.MinLng + p4.1 * (bounds.MaxLng - bounds.MinLng)⟩
    ⟨(i : ℤ) + 1, start, stop, "car"⟩ ::
      generateRandomRequestsAux M bounds n (i + 1) p4.2

/-- `generator.generateRandomRequests`: fails when no bounds are registered
for the configured country, otherwise generates `count` random requests
inside the bounds rectangle. -/
def generateRandomRequests (M : RngModel σ) (g : Generator σ) (count : ℕ) :
    Except String (List RouteRequest) :=
  match g.config.CountryBoundsMap.lookup g.config.Country with
  | none => .error ("country bounds not found for " ++ g.config.Country)
  | some bounds => .ok (generateRandomRequestsAux M bounds count 0 g.rand)

/-- The nested pair loop of `generatePermutationRequests`: all ordered pairs
`(i, j)` with `i, j < L` and `i ≠ j`, in `i`-major order. -/
def allPairsOf (L : ℕ) : List (ℕ × ℕ) :=
  (List.range L).flatMap fun i =>
    ((List.range L).filter fun j => i ≠ j).map fun j => (i, j)

/-- One swap of `rand.Shuffle`'s Fisher–Yates loop:
`l[i], l[j] = l[j], l[i]` (identity when an index is out of range, which
the embedded caller never produces). -/
def listSwap (l : List α) (i j : ℕ) : List α :=
  match l.get? i, l.get? j with
  | some a, some b => (l.set i b).set j a
  | _, _ => l

/-- The loop of Go's `rand.Shuffle`: for `i := n-1; i > 0; i--` swap
position `i` with position `Intn(i+1)`.  The first argument is the loop
counter `i`. -/
def shuffleAux (M : RngModel σ) : ℕ → List α → σ → List α × σ
  | 0, l, s => (l, s)
  | i + 1, l, s =>
    let p := M.intn (i + 2) s
    shuffleAux M i (listSwap l (i + 1) p.1) p.2

/-- `rand.Shuffle` on a list: Fisher–Yates from index `n-1` down to `1`. -/
def shuffle (M : RngModel σ) (l : List α) (s : σ) : List α × σ :=
  shuffleAux M (l.length - 1) l s

/-- The loop body of `generatePermutationRequests`: the request with index
`i` (ID `i+1`), built from `shuffled[i % len(shuffled)]`.  Go's in-range
slice indexing is embedded as `getD` with a junk default (the caller's
indices are always in range). -/
def permRequestOf (locations : List Location) (shuffled : List (ℕ × ℕ))
    (i : ℕ) : RouteRequest :=
  let pair := shuffled.getD (i % shuffled.length) (0, 0)
  let startLoc := locations.getD pair.1 ⟨"", 0, 0⟩
  let endLoc := locations.getD pair.2 ⟨"", 0, 0⟩
  ⟨(i : ℤ) + 1, ⟨startLoc.Lat, startLoc.Lng⟩,
   ⟨endLoc.Lat, endLoc.Lng⟩, "car"⟩

/-- `generator.generatePermutationRequests`: all non-self ordered pairs over
the location set, shuffled once, then `count` requests produced by cycling
through the shuffled pair list (`allPairs[i % len(allPairs)]`, ID `i+1`). -/
def generatePermutationRequests (M : RngModel σ) (g : Generator σ)
    (count : ℕ) : Except String (List RouteRequest) :=
  let locations := g.config.LocationSet
  if locations.length < 2 then
    .error "need at least 2 locations for permutation"
  else
    let allPairs := allPairsOf locations.length
    if allPairs.length = 0 then
      .error "no valid location pairs found"
    else
      let shuffled := (shuffle M allPairs g.rand).1
      .ok ((List.range count).map (permRequestOf locations shuffled))

/-- `generator.GenerateRouteRequests`: dispatch on the configured method. -/
def GenerateRouteRequests (M : RngModel σ) (g : Generator σ) :
    Except String (List RouteRequest) :=
  let count := g.config.RouteCount
  match g.config.Method with
  | "random" => generateRandomRequests M g count
  | "permutation" => generatePermutationRequests M g count
  | m => .error ("unknown generation method: " ++ m)

/-! ## The retry processor (`internal/route-generator/processor/processor.go`)

`ProcessRoute` performs up to `maxRetries = 3` attempts against the route
service.  One attempt is: send the HTTP request, read the body, check the
status code, parse the JSON, inspect the parsed `RouteResponse`.  The
network interaction is I/O; the embedding takes the per-attempt outcome as
a function from the attempt number to an `AttemptOutcome`. -/

/-- `models.RouteResponse`: the parsed collaborator response (the fields
`ProcessRoute` reads). -/
structure RouteResponse where
  code : String
  message : String
  routes : List Route
deriving DecidableEq

/-- The observable outcome of one HTTP attempt, in the order the Go code
checks them: `client.Do` failure, `io.ReadAll` failure, non-200 status,
JSON parse failure, or a parsed response. -/
inductive AttemptOutcome where
  | sendFailed
  | readFailed
  | badStatus (status : ℕ)
  | parseFailed
  | parsed (resp : RouteResponse)
deriving DecidableEq

/-- The errors `ProcessRoute` builds with `fmt.Errorf`, tagged with the
attempt number where the Go message interpolates it.  `nilErr` is Go's nil
`error` (the initial value of `lastErr`); `maxRetriesExceeded` is the
post-loop wrap (unreachable for `maxRetries ≥ 1`, kept for fidelity). -/
inductive ProcError where
  | nilErr
  | sendFailed (attempt : ℕ)
  | readFailed (attempt : ℕ)
  | badStatus (attempt : ℕ)
  | parseFailed (attempt : ℕ)
  | serviceError (attempt : ℕ) (message : String)
  | emptyRoutes (attempt : ℕ)
  | noRouteFound
  | maxRetriesExceeded (last : ProcError)
deriving DecidableEq

/-- How one attempt's outcome steers the loop: immediate success, immediate
terminal "no route found" return, or a retryable error. -/
inductive Classified where
  | success (r : Route)
  | terminal
  | retry (e : ProcError)
deriving DecidableEq

/-- The per-attempt classification logic of `ProcessRoute`, in source
order: transport/read/status/parse failures are retryable; for a parsed
response, `code != "Ok"` is terminal if `code == "NoRoute"` and retryable
otherwise; `code == "Ok"` with an empty route list is retryable; otherwise
the first route is the success payload. -/
def classify (attempt : ℕ) : AttemptOutcome → Classified
  | .sendFailed => .retry (.sendFailed attempt)
  | .readFailed => .retry (.readFailed attempt)
  | .badStatus _ => .retry (.badStatus attempt)
  | .parseFailed => .retry (.parseFailed attempt)
  | .parsed resp =>
    if resp.code ≠ "Ok" then
      if resp.code = "NoRoute" then .terminal
      else .retry (.serviceError attempt resp.message)
    else
      match resp.routes with
      | [] => .retry (.emptyRoutes attempt)
      | r :: _ => .success r

/-- `maxRetries := 3` in `ProcessRoute`. -/
def maxRetries : ℕ := 3

/-- The backoff before retrying after a failed attempt `k`:
`time.Duration(1 << uint(attempt-1)) * time.Second`, in seconds. -/
def backoff (attempt : ℕ) : ℕ := 2 ^ (attempt - 1)

/-- Componentwise decidable equality for `Except`. -/
instance {ε α : Type} [DecidableEq ε] [DecidableEq α] :
    DecidableEq (Except ε α)
  | .ok a, .ok b =>
    if h : a = b then .isTrue (congrArg Except.ok h)
    else .isFalse fun he => h (Except.ok.inj he)
  | .ok _, .error _ => .isFalse fun he => Except.noConfusion he
  | .error _, .ok _ => .isFalse fun he => Except.noConfusion he
  | .error e, .error f =>
    if h : e = f then .isTrue (congrArg Except.error h)
    else .isFalse fun he => h (Except.error.inj he)

/-- The observable result of `ProcessRoute`: the returned
`(*models.Route, error)`, the number of attempts performed, and the
sequence of backoff sleeps (in seconds) in the order they occurred. -/
structure ProcResult where
  result : Except ProcError Route
  attempts : ℕ
  sleeps : List ℕ
deriving DecidableEq

/-- The retry loop of `ProcessRoute`.  Arguments: remaining loop
iterations (fuel), the current attempt number, `lastErr`, and the sleeps
performed so far.  A retryable failure with `attempt < maxRetries` sleeps
`backoff attempt` and continues; with no attempts remaining it returns the
error of this (final) attempt.  Fuel exhaustion is the post-loop
`"max retries exceeded: %w"` return (unreachable from `ProcessRoute`). -/
def processRouteAux (responses : ℕ → AttemptOutcome) :
    ℕ → ℕ → ProcError → List ℕ → ProcResult
  | 0, attempt, lastErr, sleeps =>
    ⟨.error (.maxRetriesExceeded lastErr), attempt - 1, sleeps⟩
  | fuel + 1, attempt, _, sleeps =>
    match classify attempt (responses attempt) with
    | .success r => ⟨.ok r, attempt, sleeps⟩
    | .terminal => ⟨.error .noRouteFound, attempt, sleeps⟩
    | .retry e =>
      if attempt < maxRetries then
        processRouteAux responses fuel (attempt + 1) e
          (sleeps ++ [backoff attempt])
      else
        ⟨.error e, attempt, sleeps⟩

/-- `processor.ProcessRoute`: the retry loop starting at attempt 1 with
`lastErr = nil`. -/
def ProcessRoute (responses : ℕ → AttemptOutcome) : ProcResult :=
  processRouteAux responses maxRetries 1 .nilErr []

/-! ## The dispatcher (`generator.ProcessRequests`)

`ProcessRequests` sends every request into a buffered channel, closes it,
starts `MaxConcurrentRequests` workers that each repeatedly take a request
from the channel, run the processor on it and append one `RouteResult` to
the result channel, and finally collects everything from the result
channel.  The embedding is a small-step relation over the channel state:
`work` is the remaining content of `workChan` (FIFO), `inFlight` the
multiset of requests taken by some worker but not yet answered, `emitted`
the content of `resultChan` in arrival order.  The relation quantifies over
every interleaving of any number of workers; the run is complete when
`workChan` is drained and no request is in flight.  (The `ctx.Done`
cancellation branch — an external real-time event — is not part of this
model: the claims below concern completed, uncancelled runs.) -/

/-- The `RouteResult` a worker emits for request `req`:
`{ID: req.ID, Route: route, Error: err}` where `(route, err)` is the
processor's answer. -/
def mkRouteResult (proc : RouteRequest → Option Route × Option String)
    (req : RouteRequest) : RouteResult :=
  ⟨req.ID, (proc req).1, (proc req).2⟩

/-- The channel state of one `ProcessRequests` run. -/
structure DispatchState where
  work : List RouteRequest
  inFlight : Multiset RouteRequest
  emitted : List RouteResult
deriving DecidableEq

/-- One scheduler step of `ProcessRequests`: a worker takes the next
request from the closed work channel, or a worker finishes its current
request and appends its result to the result channel. -/
inductive DispatchStep (proc : RouteRequest → Option Route × Option String) :
    DispatchState → DispatchState → Prop
  | dequeue (r : RouteRequest) (w : List RouteRequest)
      (inf : Multiset RouteRequest) (em : List RouteResult) :
      DispatchStep proc ⟨r :: w, inf, em⟩ ⟨w, r ::ₘ inf, em⟩
  | emit (w : List RouteRequest) (inf : Multiset RouteRequest)
      (em : List RouteResult) (r : RouteRequest) (h : r ∈ inf) :
      DispatchStep proc ⟨w, inf, em⟩
        ⟨w, inf.erase r, em ++ [mkRouteResult proc r]⟩

/-- The initial channel state of `ProcessRequests requests`: all requests
queued, nothing in flight, nothing emitted. -/
def dispatchInit (requests : List RouteRequest) : DispatchState :=
  ⟨requests, 0, []⟩

/-- A complete (drained) run: the work channel is empty and every taken
request has been answered.  `ProcessRequests` returns `emitted` exactly in
this situation (the collector loop ends when `resultChan` is closed, which
happens after all workers returned). -/
def DispatchDone (s : DispatchState) : Prop :=
  s.work = [] ∧ s.inFlight = 0

/-- The multiset of request IDs of a request list. -/
def requestIDs (l : List RouteRequest) : Multiset ℤ :=
  (l.map RouteRequest.ID : List ℤ)

/-- The multiset of result IDs of a result list. -/
def resultIDs (l : List RouteResult) : Multiset ℤ :=
  (l.map RouteResult.ID : List ℤ)

/-! ## The result store (`storage` package, config.go)

`Storage` holds the in-memory metadata collection (`s.metadata`), guarded
by `fileMutex`.  File writes are I/O: the outcome of
`saveIndividualRoute`'s file write is an explicit parameter, and the
"written" index/summary are the values passed to the JSON encoder. -/

/-- `storage.RouteMetadata` (the `GeneratedAt` wall-clock timestamp is I/O
and not part of the model). -/
structure RouteMetadata where
  ID : ℤ
  StartLat : ℚ
  StartLng : ℚ
  EndLat : ℚ
  EndLng : ℚ
  Profile : String
  Distance : ℚ
  Duration : ℚ
  Success : Bool
  ErrorMessage : String
deriving DecidableEq

/-- The in-memory state of `storage.Storage`: the accumulated metadata
collection. -/
structure Storage where
  metadata : List RouteMetadata
deriving DecidableEq

/-- The `RouteMetadata` value `SaveRoute` builds from a result and its
originating request: `Success` iff `result.Error == nil`; `ErrorMessage`
from the error when present; `Distance`/`Duration` from the route when the
result succeeded and carries one, 0 otherwise. -/
def mkMetadata (result : RouteResult) (request : RouteRequest) :
    RouteMetadata :=
  ⟨request.ID, request.Start.Latitude, request.Start.Longitude,
   request.End.Latitude, request.End.Longitude, request.Profile,
   (match result.Error, result.Route with
    | none, some r => r.Distance
    | _, _ => 0),
   (match result.Error, result.Route with
    | none, some r => r.Duration
    | _, _ => 0),
   result.Error.isNone,
   (match result.Error with | some e => e | none => "")⟩

/-- `storage.SaveRoute`, with the file-write outcome of
`saveIndividualRoute` passed in (`.ok ()` = the write returned nil).  It
builds the metadata entry, attempts the individual-route write, and only
on success appends the entry to the in-memory collection; on failure it
returns the wrapped error and leaves the collection unchanged.  The whole
body runs under `fileMutex`. -/
def SaveRoute (writeOutcome : Except String Unit) (s : Storage)
    (result : RouteResult) (request : RouteRequest) :
    Except String Unit × Storage :=
  let metadata := mkMetadata result request
  match writeOutcome with
  | .error e => (.error ("failed to save individual route: " ++ e), s)
  | .ok _ => (.ok (), ⟨s.metadata ++ [metadata]⟩)

/-- One recorded `SaveRoute` invocation: the result, its originating
request, and the outcome of the individual-artifact file write. -/
structure SaveCall where
  result : RouteResult
  request : RouteRequest
  writeOutcome : Except String Unit

/-- Whether a call's artifact write succeeded. -/
def SaveCall.writeOk (c : SaveCall) : Bool :=
  match c.writeOutcome with
  | .ok _ => true
  | .error _ => false

/-- A batch of `SaveRoute` calls applied in order (the mutex serializes
concurrent callers into some such order). -/
def saveBatch (calls : List SaveCall) (s : Storage) : Storage :=
  calls.foldl (fun st c => (SaveRoute c.writeOutcome st c.result c.request).2) s

/-- `storage.SaveMetadata`: the index content written is exactly the
accumulated `s.metadata` slice, as-is (no sorting). -/
def SaveMetadata (s : Storage) : List RouteMetadata :=
  s.metadata

/-- `storage.SaveSummary`'s summary value (the fields the claims are
about; timestamps are I/O). -/
structure RunSummary where
  TotalRoutes : ℤ
  SuccessfulRoutes : ℤ
  FailedRoutes : ℤ
  SuccessRate : GoFloat
  Method : String
  Country : String
  LocationCount : ℤ
deriving DecidableEq

/-- `storage.SaveSummary`: the summary content written.  `SuccessRate` is
`float64(successfulRoutes) / float64(totalRoutes) * 100`, computed with
IEEE semantics and no zero guard.  `Country` is set for the "random"
method, `LocationCount` otherwise. -/
def SaveSummary (cfg : GenConfig) (totalRoutes successfulRoutes
    failedRoutes : ℤ) : RunSummary :=
  ⟨totalRoutes, successfulRoutes, failedRoutes,
   GoFloat.mul
     (GoFloat.div (GoFloat.fin (successfulRoutes : ℚ))
       (GoFloat.fin (totalRoutes : ℚ)))
     (GoFloat.fin 100),
   cfg.Method,
   (if cfg.Method = "random" then cfg.Country else ""),
   (if cfg.Method = "random" then 0 else (cfg.LocationSet.length : ℤ))⟩

/-! ## The racy counters of `saveResults` (`cmd/route-generator/main.go`)

`saveResults` launches one goroutine per result; after a successful
`storage.SaveRoute` each goroutine executes `successful++` (or `failed++`)
on a variable shared by all goroutines, with no mutex and no atomic.  A Go
increment is a load followed by a store; the interleaving of those two
operations across goroutines is modelled explicitly.  `Storage.fileMutex`
protects `SaveRoute` itself but not these counters. -/

/-- The progress of one goroutine through its unsynchronized
`successful++`: not yet executed, loaded the shared value `v`, or done. -/
inductive WorkerPhase where
  | start
  | loaded (v : ℕ)
  | done
deriving DecidableEq

/-- The shared counter and the per-goroutine phases. -/
structure RaceState where
  successful : ℕ
  workers : List WorkerPhase
deriving DecidableEq

/-- One scheduler step of the unsynchronized `successful++` increments:
goroutine `i` loads the shared counter, or stores its loaded value plus
one. -/
inductive RaceStep : RaceState → RaceState → Prop
  | load (s : RaceState) (i : ℕ) (h : s.workers.get? i = some .start) :
      RaceStep s ⟨s.successful, s.workers.set i (.loaded s.successful)⟩
  | store (s : RaceState) (i v : ℕ) (h : s.workers.get? i = some (.loaded v)) :
      RaceStep s ⟨v + 1, s.workers.set i .done⟩

/-! ## Statement helpers and concrete fixtures

`coordInBounds` expresses the spec's "lies within
`[minLat,maxLat] × [minLng,maxLng]`"; the remaining definitions are
concrete inputs used to run the embedded code in witnesses and
counterexamples. -/

/-- A coordinate lies within the bounds rectangle. -/
abbrev coordInBounds (b : CountryBounds) (c : Coordinate) : Prop :=
  b.MinLat ≤ c.Latitude ∧ c.Latitude ≤ b.MaxLat ∧
  b.MinLng ≤ c.Longitude ∧ c.Longitude ≤ b.MaxLng

/-- A well-formed sample configuration for the "random" method. -/
def sampleConfig : GenConfig :=
  ⟨5, "random", "netherlands", [("netherlands", ⟨50, 54, 3, 8⟩)], [], 42⟩

/-- A trivial rand model that always draws 0 (a legal value of
`rand.Float64`, whose range is `[0,1)`). -/
def zeroRng : RngModel Unit :=
  ⟨fun _ => (0, ()), fun _ _ => (0, ()), fun _ => ()⟩

/-- A configuration whose registered bounds are inverted
(`MinLat > MaxLat`): nothing in the code validates the ordering of the
bounds. -/
def invertedConfig : GenConfig :=
  ⟨1, "random", "x", [("x", ⟨1, 0, 0, 1⟩)], [], 0⟩

/-- A sample configuration for the "permutation" method with two
locations. -/
def permConfig : GenConfig :=
  ⟨3, "permutation", "", [], [⟨"A", 52, 4⟩, ⟨"B", 53, 5⟩], 7⟩

/-- A sample request with the given ID. -/
def reqOf (id : ℤ) : RouteRequest :=
  ⟨id, ⟨52, 4⟩, ⟨53, 5⟩, "car"⟩

/-- A sample successful result with the given ID. -/
def okResult (id : ℤ) : RouteResult :=
  ⟨id, some ⟨"geo", 1000, 60⟩, none⟩

/-- Two successful `SaveRoute` calls made in descending ID order (the
completion order of concurrent workers is arbitrary). -/
def outOfOrderCalls : List SaveCall :=
  [⟨okResult 2, reqOf 2, .ok ()⟩, ⟨okResult 1, reqOf 1, .ok ()⟩]

/-- A batch in which the artifact write for request 1 fails and the write
for request 2 succeeds. -/
def failCalls : List SaveCall :=
  [⟨okResult 1, reqOf 1, .error "disk full"⟩, ⟨okResult 2, reqOf 2, .ok ()⟩]

/-- A sample processor that fails every request (the dispatcher invariant
is independent of per-request success). -/
def procW : RouteRequest → Option Route × Option String :=
  fun _ => (none, some "processing failed")

/-- The result `procW` emits for `reqOf 1`. -/
def resW1 : RouteResult := mkRouteResult procW (reqOf 1)

/-- The result `procW` emits for `reqOf 2`. -/
def resW2 : RouteResult := mkRouteResult procW (reqOf 2)

/-- A collaborator whose every attempt fails at transport level. -/
def responsesAllFail : ℕ → AttemptOutcome := fun _ => .sendFailed

/-- A collaborator that answers "NoRoute" on every attempt. -/
def responsesNoRoute : ℕ → AttemptOutcome :=
  fun _ => .parsed ⟨"NoRoute", "", []⟩

/-! ## Helper lemmas -/

/-- The metadata collection after a batch of `SaveRoute` calls: the prior
entries followed by one entry per call whose artifact write succeeded, in
call order. -/
theorem saveBatch_metadata (calls : List SaveCall) (s : Storage) :
    (saveBatch calls s).metadata =
      s.metadata ++ (calls.filter SaveCall.writeOk).map
        (fun c => mkMetadata c.result c.request) := by
  induction calls generalizing s with
  | nil => simp [saveBatch]
  | cons c cs ih =>
    have hstep : saveBatch (c :: cs) s =
        saveBatch cs (SaveRoute c.writeOutcome s c.result c.request).2 := rfl
    rw [hstep, ih]
    cases hw : c.writeOutcome with
    | ok u =>
      simp [SaveRoute, hw, List.filter_cons, SaveCall.writeOk]
    | error e =>
      simp [SaveRoute, hw, List.filter_cons, SaveCall.writeOk]

/-! ## Claim C2 (corrected) -/

/-- Claim C2, counterexample: at `total = 0` the summary's `SuccessRate` is
NaN (the unguarded `0.0/0.0`), not `0` as the claim states. -/
theorem saveSummary_zero_counterexample :
    (SaveSummary sampleConfig 0 0 0).SuccessRate = GoFloat.nan ∧
    (SaveSummary sampleConfig 0 0 0).SuccessRate ≠ GoFloat.fin 0 := by
  constructor
  · decide
  · decide

/-- Claim C2, amended: the written `SuccessRate` equals
`100 * successful / total` whenever `total ≠ 0`; when `total = 0` (and
hence `successful = 0`, since successes are counted among `total`
results), the unguarded division produces NaN, not 0. -/
theorem saveSummary_success_rate (cfg : GenConfig) (t s f : ℤ) :
    (t ≠ 0 →
      (SaveSummary cfg t s f).SuccessRate = GoFloat.fin (100 * s / t)) ∧
    (t = 0 → s = 0 → (SaveSummary cfg t s f).SuccessRate = GoFloat.nan) := by
  constructor
  · intro ht
    have ht' : ((t : ℚ)) ≠ 0 := Int.cast_ne_zero.mpr ht
    simp only [SaveSummary, GoFloat.div, GoFloat.mul, if_neg ht']
    rw [GoFloat.fin.injEq]
    ring
  · intro ht hs
    subst ht; subst hs
    simp [SaveSummary, GoFloat.div, GoFloat.mul]

/-- Witness for C2: the amended theorem evaluated at `total = 4`,
`successful = 3` and at `total = 0`. -/
theorem saveSummary_success_rate_witness :
    (SaveSummary sampleConfig 4 3 1).SuccessRate = GoFloat.fin (100 * 3 / 4) ∧
    (SaveSummary sampleConfig 0 0 0).SuccessRate = GoFloat.nan := by
  constructor
  · have h := (saveSummary_success_rate sampleConfig 4 3 1).1 (by decide)
    simpa using h
  · exact (saveSummary_success_rate sampleConfig 0 0 0).2 rfl rfl

/-! ## Claim C3 (corrected) -/

/-- Claim C3, counterexample: after two successful `SaveRoute` calls made
in the order ID 2 then ID 1, `SaveMetadata` writes the entries as
`[2, 1]` — not ordered by ascending route ID. -/
theorem saveMetadata_unsorted_counterexample :
    (SaveMetadata (saveBatch outOfOrderCalls ⟨[]⟩)).map RouteMetadata.ID =
      [2, 1] ∧
    ¬ List.Sorted (· ≤ ·)
      ((SaveMetadata (saveBatch outOfOrderCalls ⟨[]⟩)).map
        RouteMetadata.ID) := by
  constructor
  · decide
  · decide

/-- Claim C3, amended: `SaveMetadata` writes the accumulated metadata
collection in `SaveRoute` call order (insertion order), not sorted by ID;
the written index is in ascending ID order exactly when the preceding
`SaveRoute` calls occurred in ascending ID order. -/
theorem saveMetadata_insertion_order (calls : List SaveCall) (s : Storage) :
    (SaveMetadata (saveBatch calls s) =
      s.metadata ++ (calls.filter SaveCall.writeOk).map
        (fun c => mkMetadata c.result c.request)) ∧
    (List.Sorted (· ≤ ·) (calls.map (fun c => c.request.ID)) →
      List.Sorted (· ≤ ·)
        ((SaveMetadata (saveBatch calls ⟨[]⟩)).map RouteMetadata.ID)) := by
  constructor
  · exact saveBatch_metadata calls s
  · intro h
    rw [show SaveMetadata (saveBatch calls ⟨[]⟩) =
          (calls.filter SaveCall.writeOk).map
            (fun c => mkMetadata c.result c.request) from
        saveBatch_metadata calls ⟨[]⟩]
    rw [List.map_map]
    have hsub : List.Sublist
        ((calls.filter SaveCall.writeOk).map (fun c => c.request.ID))
        (calls.map (fun c => c.request.ID)) :=
      (List.filter_sublist calls).map _
    exact h.sublist hsub

/-- Witness for C3's amended theorem: evaluated on the out-of-order batch
(first conjunct) and on an in-order batch (second conjunct). -/
theorem saveMetadata_insertion_order_witness :
    (SaveMetadata (saveBatch outOfOrderCalls ⟨[]⟩) =
      [mkMetadata (okResult 2) (reqOf 2), mkMetadata (okResult 1) (reqOf 1)]) ∧
    List.Sorted (· ≤ ·)
      ((SaveMetadata (saveBatch failCalls ⟨[]⟩)).map RouteMetadata.ID) := by
  constructor
  · have h := (saveMetadata_insertion_order outOfOrderCalls ⟨[]⟩).1
    simpa [outOfOrderCalls, SaveCall.writeOk] using h
  · exact (saveMetadata_insertion_order failCalls ⟨[]⟩).2 (by decide)

/-! ## Claim C10 (confirmed) -/

/-- Claim C10: `SaveRoute` is atomic with respect to the metadata
collection — a failed artifact write returns the wrapped error and leaves
the collection unchanged, a successful write appends exactly the entry for
that call, and an ID none of whose calls' writes succeeded is absent from
the final index. -/
theorem saveRoute_atomic :
    (∀ (s : Storage) (res : RouteResult) (req : RouteRequest) (e : String),
      (SaveRoute (.error e) s res req).2 = s ∧
      (SaveRoute (.error e) s res req).1 =
        .error ("failed to save individual route: " ++ e)) ∧
    (∀ (s : Storage) (res : RouteResult) (req : RouteRequest),
      (SaveRoute (.ok ()) s res req).1 = .ok () ∧
      (SaveRoute (.ok ()) s res req).2.metadata =
        s.metadata ++ [mkMetadata res req]) ∧
    (∀ (calls : List SaveCall) (id : ℤ),
      (∀ c ∈ calls, c.request.ID = id → c.writeOk = false) →
      id ∉ (SaveMetadata (saveBatch calls ⟨[]⟩)).map RouteMetadata.ID) := by
  refine ⟨fun s res req e => ⟨rfl, rfl⟩, fun s res req => ⟨rfl, rfl⟩, ?_⟩
  intro calls id h hmem
  rw [show SaveMetadata (saveBatch calls ⟨[]⟩) =
        (calls.filter SaveCall.writeOk).map
          (fun c => mkMetadata c.result c.request) from
      saveBatch_metadata calls ⟨[]⟩] at hmem
  rw [List.map_map, List.mem_map] at hmem
  obtain ⟨c, hc, hid⟩ := hmem
  rw [List.mem_filter] at hc
  exact absurd hc.2 (by simp [h c hc.1 hid])

/-- Witness for C10: on the concrete batch `failCalls` (write for ID 1
fails, write for ID 2 succeeds), ID 1 is absent from the final index, and
the failing single call leaves the empty store unchanged. -/
theorem saveRoute_atomic_witness :
    (1 : ℤ) ∉ (SaveMetadata (saveBatch failCalls ⟨[]⟩)).map
      RouteMetadata.ID ∧
    (SaveRoute (.error "disk full") ⟨[]⟩ (okResult 1) (reqOf 1)).2 =
      (⟨[]⟩ : Storage) := by
  constructor
  · exact saveRoute_atomic.2.2 failCalls 1 (by decide)
  · exact (saveRoute_atomic.1 ⟨[]⟩ (okResult 1) (reqOf 1) "disk full").1

/-! ## Generator lemmas -/

/-- A uniform sample `lo + u * (hi - lo)` with `u ∈ [0,1)` stays in
`[lo, hi]` when `lo ≤ hi`. -/
theorem sample_in_range (lo hi u : ℚ) (hle : lo ≤ hi) (h0 : 0 ≤ u)
    (h1 : u < 1) : lo ≤ lo + u * (hi - lo) ∧ lo + u * (hi - lo) ≤ hi := by
  constructor
  · nlinarith
  · nlinarith

/-- The random-request loop produces exactly `n` requests. -/
theorem generateRandomRequestsAux_length {σ : Type} (M : RngModel σ)
    (bounds : CountryBounds) (n : ℕ) :
    ∀ (i : ℕ) (s : σ), (generateRandomRequestsAux M bounds n i s).length = n := by
  induction n with
  | zero => intro i s; rfl
  | succ n ih =>
    intro i s
    simp [generateRandomRequestsAux, ih]

/-- The random-request loop assigns IDs `i+1, i+2, ...` in order. -/
theorem generateRandomRequestsAux_ids {σ : Type} (M : RngModel σ)
    (bounds : CountryBounds) (n : ℕ) :
    ∀ (i : ℕ) (s : σ),
      (generateRandomRequestsAux M bounds n i s).map RouteRequest.ID =
        (List.range' (i + 1) n).map (fun k => (k : ℤ)) := by
  induction n with
  | zero => intro i s; rfl
  | succ n ih =>
    intro i s
    rw [List.range'_succ]
    simp only [generateRandomRequestsAux, List.map_cons, ih]
    refine List.cons_eq_cons.mpr ⟨by push_cast; ring, rfl⟩

/-- Every coordinate the random-request loop draws lies inside the bounds
rectangle, provided the bounds are well-formed and the rand model obeys
`rand.Float64`'s range contract. -/
theorem generateRandomRequestsAux_bounds {σ : Type} (M : RngModel σ)
    (bounds : CountryBounds)
    (hM : ∀ s : σ, 0 ≤ (M.float64 s).1 ∧ (M.float64 s).1 < 1)
    (hlat : bounds.MinLat ≤ bounds.MaxLat)
    (hlng : bounds.MinLng ≤ bounds.MaxLng) (n : ℕ) :
    ∀ (i : ℕ) (s : σ) req,
      req ∈ generateRandomRequestsAux M bounds n i s →
      coordInBounds bounds req.Start ∧ coordInBounds bounds req.End := by
  induction n with
  | zero => intro i s req h; simp [generateRandomRequestsAux] at h
  | succ n ih =>
    intro i s req h
    rw [generateRandomRequestsAux, List.mem_cons] at h
    rcases h with h | h
    · subst h
      have h1 := sample_in_range bounds.MinLat bounds.MaxLat
        (M.float64 s).1 hlat (hM _).1 (hM _).2
      have h2 := sample_in_range bounds.MinLng bounds.MaxLng
        (M.float64 (M.float64 s).2).1 hlng (hM _).1 (hM _).2
      have h3 := sample_in_range bounds.MinLat bounds.MaxLat
        (M.float64 (M.float64 (M.float64 s).2).2).1 hlat (hM _).1 (hM _).2
      have h4 := sample_in_range bounds.MinLng bounds.MaxLng
        (M.float64 (M.float64 (M.float64 (M.float64 s).2).2).2).1 hlng
        (hM _).1 (hM _).2
      exact ⟨⟨h1.1, h1.2, h2.1, h2.2⟩, ⟨h3.1, h3.2, h4.1, h4.2⟩⟩
    · exact ih (i + 1) _ req h

/-- The concrete LCG rand model obeys `rand.Float64`'s range contract. -/
theorem lcgRng_float64_range :
    ∀ s : ℕ, 0 ≤ (lcgRng.float64 s).1 ∧ (lcgRng.float64 s).1 < 1 := by
  intro s
  constructor
  · simp only [lcgRng]
    positivity
  · simp only [lcgRng]
    rw [div_lt_one (by norm_num)]
    have h : (lcgNext s % 1024) < 1024 := Nat.mod_lt _ (by norm_num)
    exact_mod_cast h

/-- Membership in the pair list built by `generatePermutationRequests`:
exactly the ordered pairs of distinct indices below `L`. -/
theorem allPairsOf_mem (L : ℕ) (p : ℕ × ℕ) :
    p ∈ allPairsOf L ↔ p.1 < L ∧ p.2 < L ∧ p.1 ≠ p.2 := by
  cases p with
  | mk a b =>
    simp only [allPairsOf, List.mem_flatMap, List.mem_map, List.mem_filter,
      List.mem_range, decide_eq_true_eq, Prod.mk.injEq]
    constructor
    · rintro ⟨i, hi, j, ⟨hj, hij⟩, hia, hjb⟩
      subst hia; subst hjb
      exact ⟨hi, hj, hij⟩
    · rintro ⟨ha, hb, hab⟩
      exact ⟨a, ha, b, ⟨hb, hab⟩, rfl, rfl⟩

/-- In `range L`, exactly `L - 1` indices differ from a given `i < L`. -/
theorem filter_ne_length (L i : ℕ) (hi : i < L) :
    ((List.range L).filter fun j => decide (i ≠ j)).length = L - 1 := by
  induction L with
  | zero => omega
  | succ n ih =>
    rw [List.range_succ n, List.filter_append]
    by_cases hin : i = n
    · subst hin
      have hself : (List.range i).filter (fun j => decide (i ≠ j)) =
          List.range i :=
        List.filter_eq_self.mpr fun a ha => by
          have halt : a < i := List.mem_range.mp ha
          simp only [decide_eq_true_eq]
          omega
      have hone : (List.filter (fun j => decide (i ≠ j)) [i]) = [] := by
        simp
      rw [hself, hone, List.append_nil, List.length_range]
      omega
    · have hlt : i < n := by omega
      have hone : ((List.filter (fun j => decide (i ≠ j)) [n])) = [n] := by
        simp [hin]
      rw [hone, List.length_append, ih hlt]
      simp
      omega

/-- The pair list has exactly `L·(L-1)` entries. -/
theorem allPairsOf_length (L : ℕ) : (allPairsOf L).length = L * (L - 1) := by
  rw [allPairsOf, List.length_flatMap]
  have hcongr : (List.range L).map
        (List.length ∘ fun i => ((List.range L).filter
          fun j => decide (i ≠ j)).map fun j => (i, j)) =
      (List.range L).map (fun _ => L - 1) :=
    List.map_congr_left fun i hi => by
      simp only [Function.comp, List.length_map]
      exact filter_ne_length L i (List.mem_range.mp hi)
  rw [hcongr, List.map_const', List.sum_replicate, List.length_range,
    smul_eq_mul]

/-- `listSwap` preserves length. -/
theorem listSwap_length (l : List α) (i j : ℕ) :
    (listSwap l i j).length = l.length := by
  unfold listSwap
  cases h1 : l.get? i <;> cases h2 : l.get? j <;> simp

/-- `listSwap` only rearranges existing elements. -/
theorem listSwap_mem (l : List α) (i j : ℕ) :
    ∀ x ∈ listSwap l i j, x ∈ l := by
  unfold listSwap
  cases h1 : l.get? i with
  | none => simp
  | some a =>
    cases h2 : l.get? j with
    | none => simp
    | some b =>
      intro x hx
      rcases List.mem_or_eq_of_mem_set hx with hx' | hx'
      · rcases List.mem_or_eq_of_mem_set hx' with hx'' | hx''
        · exact hx''
        · exact hx'' ▸ List.get?_mem h2
      · exact hx' ▸ List.get?_mem h1

/-- The Fisher–Yates loop preserves length. -/
theorem shuffleAux_length {σ : Type} (M : RngModel σ) (i : ℕ) :
    ∀ (l : List α) (s : σ), ((shuffleAux M i l s).1).length = l.length := by
  induction i with
  | zero => intro l s; rfl
  | succ n ih =>
    intro l s
    rw [shuffleAux, ih, listSwap_length]

/-- The Fisher–Yates loop only rearranges existing elements. -/
theorem shuffleAux_mem {σ : Type} (M : RngModel σ) (i : ℕ) :
    ∀ (l : List α) (s : σ) x, x ∈ (shuffleAux M i l s).1 → x ∈ l := by
  induction i with
  | zero => intro l s x hx; exact hx
  | succ n ih =>
    intro l s x hx
    exact listSwap_mem l (n + 1) _ x (ih _ _ x hx)

/-! ## Claim C6 (confirmed) -/

/-- Claim C6: request generation is deterministic — generators constructed
from identical configurations (same strategy, parameters and seed, hence
the same seeded rand stream) produce identical request sequences, for the
top-level dispatch and for both strategies. -/
theorem generation_deterministic {σ : Type} (M : RngModel σ)
    (cfg cfg' : GenConfig) (h : cfg = cfg') :
    GenerateRouteRequests M (NewGenerator M cfg) =
      GenerateRouteRequests M (NewGenerator M cfg') ∧
    (∀ count : ℕ,
      generateRandomRequests M (NewGenerator M cfg) count =
        generateRandomRequests M (NewGenerator M cfg') count) ∧
    (∀ count : ℕ,
      generatePermutationRequests M (NewGenerator M cfg) count =
        generatePermutationRequests M (NewGenerator M cfg') count) := by
  subst h
  exact ⟨rfl, fun _ => rfl, fun _ => rfl⟩

/-- Witness for C6: two runs on the concrete LCG model and sample
configuration coincide, and the run actually produces 5 requests. -/
theorem generation_deterministic_witness :
    GenerateRouteRequests lcgRng (NewGenerator lcgRng sampleConfig) =
      GenerateRouteRequests lcgRng (NewGenerator lcgRng sampleConfig) ∧
    ((GenerateRouteRequests lcgRng
      (NewGenerator lcgRng sampleConfig)).toOption.getD []).length = 5 := by
  refine ⟨(generation_deterministic lcgRng sampleConfig sampleConfig rfl).1, ?_⟩
  decide

/-! ## Claim C7 (corrected) -/

/-- Claim C7, counterexample: with registered but inverted bounds
(`MinLat = 1 > 0 = MaxLat`) — which nothing in the code rejects — the
generated start coordinate has latitude 1, which does not lie within
`[MinLat, MaxLat] = [1, 0]` (an empty interval): the claim's "for every
bounds" fails. -/
theorem generateRandom_bounds_counterexample :
    generateRandomRequests zeroRng (NewGenerator zeroRng invertedConfig) 1 =
      .ok [⟨1, ⟨1, 0⟩, ⟨1, 0⟩, "car"⟩] ∧
    ¬ coordInBounds ⟨1, 0, 0, 1⟩ ⟨1, 0⟩ := by
  constructor
  · refine congrArg Except.ok ?_
    refine List.cons_eq_cons.mpr ⟨?_, rfl⟩
    simp only [zeroRng, RouteRequest.mk.injEq, Coordinate.mk.injEq]
    norm_num
  · intro h
    have h2 := h.2.1
    norm_num at h2

/-- Claim C7, amended: `generateRandomRequests` fails exactly when no
bounds are registered for the configured country; otherwise it returns
exactly `count` requests with IDs `1..count` in order, and — provided the
registered bounds are well-formed (`MinLat ≤ MaxLat`, `MinLng ≤ MaxLng`) —
every start and end coordinate lies within the bounds rectangle.  The
hypothesis on `M` is `rand.Float64`'s documented range `[0,1)`. -/
theorem generateRandom_spec {σ : Type} (M : RngModel σ)
    (hM : ∀ s : σ, 0 ≤ (M.float64 s).1 ∧ (M.float64 s).1 < 1)
    (g : Generator σ) (count : ℕ) :
    (g.config.CountryBoundsMap.lookup g.config.Country = none ↔
      generateRandomRequests M g count =
        .error ("country bounds not found for " ++ g.config.Country)) ∧
    (∀ bounds reqs,
      g.config.CountryBoundsMap.lookup g.config.Country = some bounds →
      generateRandomRequests M g count = .ok reqs →
      reqs.length = count ∧
      reqs.map RouteRequest.ID =
        (List.range' 1 count).map (fun k => (k : ℤ)) ∧
      (bounds.MinLat ≤ bounds.MaxLat → bounds.MinLng ≤ bounds.MaxLng →
        ∀ req ∈ reqs, coordInBounds bounds req.Start ∧
          coordInBounds bounds req.End)) := by
  constructor
  · constructor
    · intro h
      rw [generateRandomRequests, h]
    · intro h
      cases hl : g.config.CountryBoundsMap.lookup g.config.Country with
      | none => rfl
      | some bounds =>
        rw [generateRandomRequests, hl] at h
        exact absurd h (by simp)
  · intro bounds reqs hl hok
    rw [generateRandomRequests, hl] at hok
    have hreqs : reqs = generateRandomRequestsAux M bounds count 0 g.rand :=
      (Except.ok.inj hok).symm
    subst hreqs
    refine ⟨generateRandomRequestsAux_length M bounds count 0 g.rand,
      generateRandomRequestsAux_ids M bounds count 0 g.rand, ?_⟩
    · intro hlat hlng req hreq
      exact generateRandomRequestsAux_bounds M bounds hM hlat hlng count 0
        g.rand req hreq

/-- Witness for C7's amended theorem: on the concrete LCG model and sample
configuration a run of 5 requests has length 5, IDs `[1..5]`, and its
first request's coordinates lie inside the Netherlands bounds. -/
theorem generateRandom_spec_witness :
    ((generateRandomRequests lcgRng (NewGenerator lcgRng sampleConfig)
        5).toOption.getD []).length = 5 ∧
    ((generateRandomRequests lcgRng (NewGenerator lcgRng sampleConfig)
        5).toOption.getD []).map RouteRequest.ID = [1, 2, 3, 4, 5] ∧
    coordInBounds ⟨50, 54, 3, 8⟩
      (((generateRandomRequests lcgRng (NewGenerator lcgRng sampleConfig)
        5).toOption.getD []).getD 0 (reqOf 0)).Start := by
  have h := (generateRandom_spec lcgRng lcgRng_float64_range
      (NewGenerator lcgRng sampleConfig) 5).2
      ⟨50, 54, 3, 8⟩
      ((generateRandomRequests lcgRng (NewGenerator lcgRng sampleConfig)
        5).toOption.getD [])
      rfl rfl
  have hmem : (((generateRandomRequests lcgRng
        (NewGenerator lcgRng sampleConfig) 5).toOption.getD []).getD 0
        (reqOf 0)) ∈
      ((generateRandomRequests lcgRng (NewGenerator lcgRng sampleConfig)
        5).toOption.getD []) := by
    rw [List.getD_eq_getElem _ (reqOf 0) (by rw [h.1]; norm_num)]
    exact List.getElem_mem _
  refine ⟨h.1, by rw [h.2.1]; decide, ?_⟩
  exact (h.2.2 (by norm_num) (by norm_num) _ hmem).1

/-! ## Claim C8 (confirmed) -/

/-- Claim C8: `generatePermutationRequests` builds the ordered-pair set
over the location indices excluding self-pairs (exactly `L·(L-1)` pairs,
and exactly the distinct-index pairs); it fails exactly when `L < 2`;
request `i` (ID `i+1`, zero-based index `i`) is built from entry
`i % (L·(L-1))` of the once-shuffled pair list; and every emitted request
is built from a pair of distinct location indices — never an identical
start and end location. -/
theorem generatePermutation_spec {σ : Type} (M : RngModel σ)
    (g : Generator σ) (count : ℕ) :
    ((allPairsOf g.config.LocationSet.length).length =
      g.config.LocationSet.length * (g.config.LocationSet.length - 1)) ∧
    (∀ p : ℕ × ℕ, p ∈ allPairsOf g.config.LocationSet.length ↔
      (p.1 < g.config.LocationSet.length ∧
       p.2 < g.config.LocationSet.length ∧ p.1 ≠ p.2)) ∧
    (g.config.LocationSet.length < 2 ↔
      generatePermutationRequests M g count =
        .error "need at least 2 locations for permutation") ∧
    (∀ reqs, generatePermutationRequests M g count = .ok reqs →
      reqs = (List.range count).map
        (permRequestOf g.config.LocationSet
          (shuffle M (allPairsOf g.config.LocationSet.length) g.rand).1) ∧
      (shuffle M (allPairsOf g.config.LocationSet.length) g.rand).1.length =
        g.config.LocationSet.length * (g.config.LocationSet.length - 1) ∧
      ∀ req ∈ reqs, ∃ p : ℕ × ℕ, p.1 ≠ p.2 ∧
        p ∈ allPairsOf g.config.LocationSet.length ∧
        req.Start = ⟨(g.config.LocationSet.getD p.1 ⟨"", 0, 0⟩).Lat,
                     (g.config.LocationSet.getD p.1 ⟨"", 0, 0⟩).Lng⟩ ∧
        req.End = ⟨(g.config.LocationSet.getD p.2 ⟨"", 0, 0⟩).Lat,
                   (g.config.LocationSet.getD p.2 ⟨"", 0, 0⟩).Lng⟩) := by
  have hshuflen :
      (shuffle M (allPairsOf g.config.LocationSet.length) g.rand).1.length =
        g.config.LocationSet.length * (g.config.LocationSet.length - 1) := by
    rw [shuffle, shuffleAux_length, allPairsOf_length]
  refine ⟨allPairsOf_length _, allPairsOf_mem _, ?_, ?_⟩
  · constructor
    · intro h
      rw [generatePermutationRequests, if_pos h]
    · intro h
      by_contra hL
      rw [generatePermutationRequests, if_neg hL] at h
      by_cases hz : (allPairsOf g.config.LocationSet.length).length = 0
      · rw [if_pos hz] at h
        exact absurd (Except.error.inj h) (by decide)
      · rw [if_neg hz] at h
        exact Except.noConfusion h
  · intro reqs hok
    by_cases hL : g.config.LocationSet.length < 2
    · rw [generatePermutationRequests, if_pos hL] at hok
      exact Except.noConfusion hok
    · have hLge : 2 ≤ g.config.LocationSet.length := by omega
      have hpos : 0 <
          g.config.LocationSet.length * (g.config.LocationSet.length - 1) := by
        have : 2 * 1 ≤
            g.config.LocationSet.length * (g.config.LocationSet.length - 1) :=
          Nat.mul_le_mul hLge (by omega)
        omega
      have hz : ¬ (allPairsOf g.config.LocationSet.length).length = 0 := by
        rw [allPairsOf_length]
        omega
      rw [generatePermutationRequests, if_neg hL, if_neg hz] at hok
      have hreqs : reqs = (List.range count).map
          (permRequestOf g.config.LocationSet
            (shuffle M (allPairsOf g.config.LocationSet.length) g.rand).1) :=
        (Except.ok.inj hok).symm
      refine ⟨hreqs, hshuflen, ?_⟩
      intro req hreq
      rw [hreqs, List.mem_map] at hreq
      obtain ⟨i, _, hi⟩ := hreq
      subst hi
      set shuffled :=
        (shuffle M (allPairsOf g.config.LocationSet.length) g.rand).1 with hs
      have hidx : i % shuffled.length < shuffled.length :=
        Nat.mod_lt _ (by rw [hshuflen.symm] at hpos; exact hpos)
      have hmemShuf : shuffled.getD (i % shuffled.length) (0, 0) ∈ shuffled := by
        rw [List.getD_eq_getElem shuffled (0, 0) hidx]
        exact List.getElem_mem hidx
      have hmemPairs : shuffled.getD (i % shuffled.length) (0, 0) ∈
          allPairsOf g.config.LocationSet.length := by
        rw [hs] at hmemShuf
        exact shuffleAux_mem M _ _ _ _ hmemShuf
      have hne : (shuffled.getD (i % shuffled.length) (0, 0)).1 ≠
          (shuffled.getD (i % shuffled.length) (0, 0)).2 :=
        ((allPairsOf_mem _ _).mp hmemPairs).2.2
      exact ⟨shuffled.getD (i % shuffled.length) (0, 0), hne, hmemPairs,
        rfl, rfl⟩

/-- Witness for C8: on the concrete LCG model and two-location
configuration, a run of 3 requests is exactly the cyclic indexing of the
shuffled pair list, whose length is `2·(2-1)`. -/
theorem generatePermutation_spec_witness :
    ((generatePermutationRequests lcgRng (NewGenerator lcgRng permConfig)
        3).toOption.getD []) =
      (List.range 3).map (permRequestOf permConfig.LocationSet
        (shuffle lcgRng (allPairsOf 2)
          (NewGenerator lcgRng permConfig).rand).1) ∧
    (shuffle lcgRng (allPairsOf 2)
      (NewGenerator lcgRng permConfig).rand).1.length = 2 * (2 - 1) := by
  have h := (generatePermutation_spec lcgRng
      (NewGenerator lcgRng permConfig) 3).2.2.2
      ((generatePermutationRequests lcgRng (NewGenerator lcgRng permConfig)
        3).toOption.getD [])
      rfl
  exact ⟨h.1, h.2.1⟩

/-! ## Processor lemmas -/

/-- Full case analysis of the three-attempt retry loop: `ProcessRoute`
written as the decision tree over the per-attempt classifications.  Both
sides unfold to the same case tree, so this is definitional. -/
theorem processRoute_eq (responses : ℕ → AttemptOutcome) :
    ProcessRoute responses =
      (match classify 1 (responses 1) with
      | .success r => ⟨.ok r, 1, []⟩
      | .terminal => ⟨.error .noRouteFound, 1, []⟩
      | .retry _ =>
        match classify 2 (responses 2) with
        | .success r => ⟨.ok r, 2, [1]⟩
        | .terminal => ⟨.error .noRouteFound, 2, [1]⟩
        | .retry _ =>
          match classify 3 (responses 3) with
          | .success r => ⟨.ok r, 3, [1, 2]⟩
          | .terminal => ⟨.error .noRouteFound, 3, [1, 2]⟩
          | .retry e3 => ⟨.error e3, 3, [1, 2]⟩ : ProcResult) := by
  rcases h1 : classify 1 (responses 1) with r1 | _ | e1 <;>
    rcases h2 : classify 2 (responses 2) with r2 | _ | e2 <;>
    rcases h3 : classify 3 (responses 3) with r3 | _ | e3 <;>
    simp [ProcessRoute, maxRetries, processRouteAux, backoff, h1, h2, h3]

/-! ## Claim C4 (confirmed) -/

/-- Claim C4: `ProcessRoute` makes at most 3 attempts; it sleeps exactly
once per completed retry, `2^(k-1)` seconds after the failed attempt `k`
(so `[1, 2]` for a full retry run); and when all three attempts fail
retryably the returned error is the third attempt's error, with exactly 3
attempts and sleeps `[1, 2]`. -/
theorem processRoute_retry_policy (responses : ℕ → AttemptOutcome) :
    (ProcessRoute responses).attempts ≤ maxRetries ∧
    (ProcessRoute responses).sleeps =
      (List.range ((ProcessRoute responses).attempts - 1)).map
        (fun k => backoff (k + 1)) ∧
    (∀ e1 e2 e3 : ProcError,
      classify 1 (responses 1) = .retry e1 →
      classify 2 (responses 2) = .retry e2 →
      classify 3 (responses 3) = .retry e3 →
      ProcessRoute responses = ⟨.error e3, 3, [1, 2]⟩) := by
  refine ⟨?_, ?_, ?_⟩
  · rw [processRoute_eq]
    rcases classify 1 (responses 1) <;> rcases classify 2 (responses 2) <;>
      rcases classify 3 (responses 3) <;> simp [maxRetries]
  · rw [processRoute_eq]
    rcases classify 1 (responses 1) <;> rcases classify 2 (responses 2) <;>
      rcases classify 3 (responses 3) <;> simp [backoff] <;> decide
  · intro e1 e2 e3 h1 h2 h3
    rw [processRoute_eq, h1, h2, h3]

/-- Witness for C4: a collaborator failing at transport level on every
attempt yields the third attempt's error, 3 attempts, and sleeps of 1s
then 2s. -/
theorem processRoute_retry_policy_witness :
    ProcessRoute responsesAllFail =
      ⟨.error (.sendFailed 3), 3, [1, 2]⟩ := by
  exact (processRoute_retry_policy responsesAllFail).2.2
    (.sendFailed 1) (.sendFailed 2) (.sendFailed 3) rfl rfl rfl

/-! ## Claim C5 (confirmed) -/

/-- Claim C5: a parsed "NoRoute" response is terminal at any attempt — on
the first attempt `ProcessRoute` returns the "no route found" failure
after exactly 1 attempt with no sleeps; an "Ok" response is a success
exactly when its route list is non-empty (an empty list is retryable);
and any other code, transport failure, read failure, non-200 status, or
malformed body is classified retryable. -/
theorem processRoute_classification (responses : ℕ → AttemptOutcome) :
    (∀ msg routes, responses 1 = .parsed ⟨"NoRoute", msg, routes⟩ →
      ProcessRoute responses = ⟨.error .noRouteFound, 1, []⟩) ∧
    (∀ (a : ℕ) msg routes,
      classify a (.parsed ⟨"NoRoute", msg, routes⟩) = .terminal) ∧
    (∀ (a : ℕ) msg r rs,
      classify a (.parsed ⟨"Ok", msg, r :: rs⟩) = .success r) ∧
    (∀ (a : ℕ) msg,
      classify a (.parsed ⟨"Ok", msg, []⟩) = .retry (.emptyRoutes a)) ∧
    (∀ (a : ℕ) code msg routes, code ≠ "Ok" → code ≠ "NoRoute" →
      classify a (.parsed ⟨code, msg, routes⟩) =
        .retry (.serviceError a msg)) ∧
    (∀ a : ℕ, classify a .sendFailed = .retry (.sendFailed a) ∧
      classify a .readFailed = .retry (.readFailed a) ∧
      (∀ st, classify a (.badStatus st) = .retry (.badStatus a)) ∧
      classify a .parseFailed = .retry (.parseFailed a)) := by
  refine ⟨?_, ?_, ?_, ?_, ?_, ?_⟩
  · intro msg routes h1
    rw [processRoute_eq]
    have hc : classify 1 (responses 1) = .terminal := by rw [h1]; rfl
    rw [hc]
  · intro a msg routes; rfl
  · intro a msg r rs; rfl
  · intro a msg; rfl
  · intro a code msg routes hok hnr
    simp [classify, hok, hnr]
  · intro a
    exact ⟨rfl, rfl, fun st => rfl, rfl⟩

/-- Witness for C5: a collaborator answering "NoRoute" immediately yields
the terminal failure after exactly one attempt, and a non-"Ok",
non-"NoRoute" code is classified retryable. -/
theorem processRoute_classification_witness :
    ProcessRoute responsesNoRoute = ⟨.error .noRouteFound, 1, []⟩ ∧
    classify 1 (.parsed ⟨"TooBig", "m", []⟩) =
      .retry (.serviceError 1 "m") := by
  constructor
  · exact (processRoute_classification responsesNoRoute).1 "" [] rfl
  · exact (processRoute_classification responsesNoRoute).2.2.2.2.1
      1 "TooBig" "m" [] (by decide) (by decide)

/-! ## Dispatcher lemmas -/

/-- One dispatcher step preserves the multiset of IDs distributed over the
work channel, the in-flight set and the result channel. -/
theorem dispatchStep_invariant
    (proc : RouteRequest → Option Route × Option String)
    {s t : DispatchState} (h : DispatchStep proc s t) :
    requestIDs t.work + Multiset.map RouteRequest.ID t.inFlight +
      resultIDs t.emitted =
    requestIDs s.work + Multiset.map RouteRequest.ID s.inFlight +
      resultIDs s.emitted := by
  cases h with
  | dequeue r w inf em =>
    simp only [requestIDs, resultIDs, List.map_cons, Multiset.map_cons,
      Multiset.map_add, Multiset.map_singleton, ← Multiset.cons_coe,
      ← Multiset.singleton_add]
    abel
  | emit w inf em r hmem =>
    have hcons : r ::ₘ inf.erase r = inf := Multiset.cons_erase hmem
    have hmap : Multiset.map RouteRequest.ID inf =
        r.ID ::ₘ Multiset.map RouteRequest.ID (inf.erase r) := by
      conv_lhs => rw [← hcons]
      rw [Multiset.map_cons]
    rw [hmap]
    simp only [requestIDs, resultIDs, mkRouteResult, List.map_append,
      ← Multiset.coe_add, List.map_cons, List.map_nil,
      Multiset.coe_singleton, ← Multiset.singleton_add]
    abel

/-- The ID invariant holds along every reachable dispatcher state. -/
theorem dispatch_reach_invariant
    (proc : RouteRequest → Option Route × Option String)
    (requests : List RouteRequest) {s : DispatchState}
    (h : Relation.ReflTransGen (DispatchStep proc)
      (dispatchInit requests) s) :
    requestIDs s.work + Multiset.map RouteRequest.ID s.inFlight +
      resultIDs s.emitted = requestIDs requests := by
  induction h with
  | refl => simp [dispatchInit, requestIDs, resultIDs]
  | tail hstep hlast ih => rw [dispatchStep_invariant proc hlast, ih]

/-! ## Claim C1 (confirmed) -/

/-- Claim C1: in every complete (drained, uncancelled) run of
`ProcessRequests`, under every scheduling of any number of workers and
every per-request outcome, the collected result list has the same length
as the input request list and its multiset of result IDs equals the
multiset of input request IDs — exactly one result per request. -/
theorem processRequests_bijection
    (proc : RouteRequest → Option Route × Option String)
    (requests : List RouteRequest) (s : DispatchState)
    (hreach : Relation.ReflTransGen (DispatchStep proc)
      (dispatchInit requests) s)
    (hdone : DispatchDone s) :
    s.emitted.length = requests.length ∧
    resultIDs s.emitted = requestIDs requests := by
  have hinv := dispatch_reach_invariant proc requests hreach
  rw [hdone.1, hdone.2] at hinv
  simp only [requestIDs, resultIDs, List.map_nil, Multiset.map_zero] at hinv
  have hids : resultIDs s.emitted = requestIDs requests := by
    simpa [requestIDs, resultIDs] using hinv
  refine ⟨?_, hids⟩
  have hcard := congrArg Multiset.card hids
  simpa [requestIDs, resultIDs] using hcard

/-- Witness for C1: a concrete complete run — two requests, two workers
interleaved (both dequeue before either emits, results arrive in reversed
order), every request failing — still emits one result per request with
matching ID multiset. -/
theorem processRequests_bijection_witness :
    ([resW2, resW1] : List RouteResult).length =
      ([reqOf 1, reqOf 2] : List RouteRequest).length ∧
    resultIDs [resW2, resW1] = requestIDs [reqOf 1, reqOf 2] := by
  have htrace : Relation.ReflTransGen (DispatchStep procW)
      (dispatchInit [reqOf 1, reqOf 2]) ⟨[], 0, [resW2, resW1]⟩ := by
    refine Relation.ReflTransGen.head
      (DispatchStep.dequeue (reqOf 1) [reqOf 2] 0 []) ?_
    refine Relation.ReflTransGen.head
      (DispatchStep.dequeue (reqOf 2) [] (reqOf 1 ::ₘ 0) []) ?_
    refine Relation.ReflTransGen.head
      (DispatchStep.emit [] (reqOf 2 ::ₘ reqOf 1 ::ₘ 0) [] (reqOf 2)
        (Multiset.mem_cons_self _ _)) ?_
    exact Relation.ReflTransGen.single
      (DispatchStep.emit [] ((reqOf 2 ::ₘ reqOf 1 ::ₘ 0).erase (reqOf 2))
        [mkRouteResult procW (reqOf 2)] (reqOf 1) (by decide))
  exact processRequests_bijection procW [reqOf 1, reqOf 2]
    ⟨[], 0, [resW2, resW1]⟩ htrace ⟨rfl, by decide⟩

/-! ## Claim C9 (code bug) -/

/-- Claim C9 fails on the code: the counter updates of `saveResults` are
*not* in a critical section.  Concretely, two goroutines each recording a
successful result can interleave their unsynchronized `successful++`
(both load 0, then both store 1): a complete schedule reaches the final
state with both workers done and `successful = 1`, a lost update — the
claimed mutual exclusion would force 2. -/
theorem recordResult_lost_update :
    Relation.ReflTransGen RaceStep ⟨0, [.start, .start]⟩
      ⟨1, [.done, .done]⟩ ∧
    (⟨1, [.done, .done]⟩ : RaceState).successful ≠ 2 := by
  constructor
  · refine Relation.ReflTransGen.head
      (RaceStep.load ⟨0, [.start, .start]⟩ 0 rfl) ?_
    refine Relation.ReflTransGen.head
      (RaceStep.load ⟨0, [.loaded 0, .start]⟩ 1 rfl) ?_
    refine Relation.ReflTransGen.head
      (RaceStep.store ⟨0, [.loaded 0, .loaded 0]⟩ 0 0 rfl) ?_
    exact Relation.ReflTransGen.single
      (RaceStep.store ⟨1, [.done, .loaded 0]⟩ 1 0 rfl)
  · decide

end VehicleTracking
